import Mathlib

/-!
Shallow embedding of `neuralprocesses/model.py`: the `Model` orchestrator,
the `_sample`/`_kl` dispatch helpers, and the `loglik`/`elbo`/`predict`
objectives.  Tensor-backend operations (`lab`/`B`) and the coder/distribution
objects are external collaborators and are modelled as oracle parameters;
the control flow, option handling, arithmetic structure and the global
regularisation scalar `B.epsilon` are translated from the source.
Float scalars (the regularisation levels `1e-6 ... 1e-3`) are modelled
as exact rationals.
-/

namespace NeuralProcesses

/-- Python exception values relevant to `model.py`.  The first three model
classes derived from `Exception`; the last two model `BaseException`-only
classes, which an `except Exception` clause does not catch. -/
inductive PyErr where
  | valueError : PyErr
  | nameError : String → PyErr
  | typeError : PyErr
  | keyboardInterrupt : PyErr
  | systemExit : PyErr
  deriving DecidableEq, Repr

/-- Whether the exception is an instance of Python's `Exception` class
(as opposed to a `BaseException`-only class). -/
def PyErr.isException : PyErr → Bool
  | .keyboardInterrupt => false
  | .systemExit => false
  | _ => true

/-- The hard regularisation ceiling `1e-3` of `predict`'s retry loop
(`model.py` line 284). -/
def ceilingEps : ℚ := 1 / 1000

/-- Outcome of the retry loop in `predict` (`model.py` lines 277-288):
either sampling succeeded, or the loop escalated past the ceiling and
re-raised the last failure, or a non-`Exception` error escaped the
`except Exception` clause uncaught. -/
inductive RetryOutcome (S : Type) where
  | success : S → RetryOutcome S
  | reraised : PyErr → RetryOutcome S
  | uncaught : PyErr → RetryOutcome S
  deriving DecidableEq, Repr

/-- One step-at-a-time embedding of the `while True` retry loop of `predict`
(`model.py` lines 277-288).  Arguments: the sampler (reading the current
global `B.epsilon`), remaining fuel (`none` models divergence), the saved
`epsilon_before`, the current `B.epsilon`, and the trace of epsilon values
at which sampling has been attempted.  Returns the outcome, the value of
`B.epsilon` after the loop exits, and the attempt trace. -/
def retryAux {S : Type} (sampler : ℚ → Except PyErr S) :
    ℕ → ℚ → ℚ → List ℚ → Option (RetryOutcome S × ℚ × List ℚ)
  | 0, _, _, _ => none
  | fuel + 1, epsBefore, eps, attempts =>
    match sampler eps with
    | .ok s => some (.success s, epsBefore, attempts ++ [eps])
    | .error e =>
      if e.isException then
        let eps2 := eps * 10
        if ceilingEps < eps2 then
          some (.reraised e, epsBefore, attempts ++ [eps])
        else
          retryAux sampler fuel epsBefore eps2 (attempts ++ [eps])
      else
        some (.uncaught e, eps, attempts ++ [eps])

/-- The retry loop of `predict` entered with `B.epsilon = eps0`, so that
`epsilon_before = eps0` (`model.py` line 277). -/
def retrySample {S : Type} (sampler : ℚ → Except PyErr S) (fuel : ℕ) (eps0 : ℚ) :
    Option (RetryOutcome S × ℚ × List ℚ) :=
  retryAux sampler fuel eps0 eps0 []

/-- The two exit paths of the retry loop named by the spec: success,
and re-raise after the ceiling is exceeded. -/
def claimedExit {S : Type} : RetryOutcome S → Prop
  | .success _ => True
  | .reraised _ => True
  | .uncaught _ => False

instance {S : Type} (r : RetryOutcome S) : Decidable (claimedExit r) := by
  cases r <;> simp [claimedExit] <;> infer_instance

lemma retryAux_restores {S : Type} (sampler : ℚ → Except PyErr S) :
    ∀ (fuel : ℕ) (epsB eps : ℚ) (acc : List ℚ) (out : RetryOutcome S)
      (epsF : ℚ) (tr : List ℚ),
      retryAux sampler fuel epsB eps acc = some (out, epsF, tr) →
      claimedExit out → epsF = epsB := by
  intro fuel
  induction fuel with
  | zero => intro epsB eps acc out epsF tr h; simp [retryAux] at h
  | succ n ih =>
    intro epsB eps acc out epsF tr h hout
    rw [retryAux] at h
    cases hs : sampler eps with
    | ok s =>
      rw [hs] at h
      simp at h
      exact h.2.1.symm
    | error e =>
      rw [hs] at h
      by_cases he : e.isException
      · simp [he] at h
        by_cases hc : ceilingEps < eps * 10
        · simp [hc] at h
          exact h.2.1.symm
        · simp [hc] at h
          exact ih epsB (eps * 10) (acc ++ [eps]) out epsF tr h hout
      · simp [he] at h
        rcases h with ⟨h1, h2, h3⟩
        rw [← h1] at hout
        simp [claimedExit] at hout

/-- C3: on both exit paths named by the spec — sampling succeeds, or the
retry loop exhausts the ceiling and re-raises — the retry loop of `predict`
leaves the global regularisation scalar `B.epsilon` equal to its value
before the call. -/
theorem predict_epsilon_restored {S : Type} (sampler : ℚ → Except PyErr S)
    (fuel : ℕ) (eps0 : ℚ) (out : RetryOutcome S) (epsF : ℚ) (tr : List ℚ)
    (h : retrySample sampler fuel eps0 = some (out, epsF, tr))
    (hout : claimedExit out) : epsF = eps0 :=
  retryAux_restores sampler fuel eps0 eps0 [] out epsF tr h hout

/-- Sampler that fails for regularisation below `1e-4` and succeeds at or
above `1e-4`. -/
def samplerJitter : ℚ → Except PyErr Unit := fun eps =>
  if eps < 1 / 10000 then .error .valueError else .ok ()

/-- Sampler that always fails. -/
def samplerAlwaysFail : ℚ → Except PyErr Unit := fun _ => .error .valueError

lemma samplerJitter_run :
    retrySample samplerJitter 10 (1 / 1000000) =
      some (.success (), 1 / 1000000, [1 / 1000000, 1 / 100000, 1 / 10000]) := by
  norm_num [retrySample, retryAux, samplerJitter, PyErr.isException, ceilingEps]

lemma samplerAlwaysFail_run :
    retrySample samplerAlwaysFail 10 (1 / 1000000) =
      some (.reraised .valueError, 1 / 1000000,
        [1 / 1000000, 1 / 100000, 1 / 10000, 1 / 1000]) := by
  norm_num [retrySample, retryAux, samplerAlwaysFail, PyErr.isException, ceilingEps]

/-- Witness for C3: a concrete successful run restores `B.epsilon = 1e-6`. -/
theorem predict_epsilon_restored_witness : (1 / 1000000 : ℚ) = 1 / 1000000 :=
  predict_epsilon_restored samplerJitter 10 (1 / 1000000)
    (.success ()) (1 / 1000000) [1 / 1000000, 1 / 100000, 1 / 10000]
    samplerJitter_run trivial

/-- C4: starting at global regularisation `1e-6`, with a sampler failing
below `1e-4` and succeeding at or above it, the retry loop of `predict`
attempts exactly at `1e-6`, `1e-5`, `1e-4` (two escalations by a factor
of 10) and returns the samples with `B.epsilon` restored; with a sampler
that always fails, it attempts at `1e-6` through `1e-3` and re-raises the
failure exactly when the escalated regularisation `1e-2` first exceeds the
ceiling `1e-3` (the escalation to `1e-3` itself does not exceed it). -/
theorem predict_retry_escalation :
    retrySample samplerJitter 10 (1 / 1000000) =
      some (.success (), 1 / 1000000, [1 / 1000000, 1 / 100000, 1 / 10000]) ∧
    retrySample samplerAlwaysFail 10 (1 / 1000000) =
      some (.reraised .valueError, 1 / 1000000,
        [1 / 1000000, 1 / 100000, 1 / 10000, 1 / 1000]) ∧
    ceilingEps < (1 / 1000 : ℚ) * 10 ∧ ¬ ceilingEps < (1 / 10000 : ℚ) * 10 := by
  refine ⟨samplerJitter_run, samplerAlwaysFail_run, by norm_num [ceilingEps],
    by norm_num [ceilingEps]⟩

/-- C10: the retry loop's handler is `except Exception`, so every exception
of Python's `Exception` class raised inside `sample()` — including
programming errors such as `NameError` or `TypeError`, not only numerical
failures — triggers regularisation escalation, and the error is re-raised
only after the escalated regularisation exceeds the ceiling `1e-3`. -/
theorem predict_retry_catches_all_exceptions (e : PyErr)
    (he : e.isException = true) :
    retrySample (fun _ => (.error e : Except PyErr Unit)) 10 (1 / 1000000) =
      some (.reraised e, 1 / 1000000,
        [1 / 1000000, 1 / 100000, 1 / 10000, 1 / 1000]) := by
  norm_num [retrySample, retryAux, he, ceilingEps]

/-- Witness for C10 at the programming error `NameError`. -/
theorem predict_retry_catches_all_exceptions_witness :
    retrySample (fun _ => (.error (PyErr.nameError "oops") : Except PyErr Unit))
        10 (1 / 1000000) =
      some (.reraised (PyErr.nameError "oops"), 1 / 1000000,
        [1 / 1000000, 1 / 100000, 1 / 10000, 1 / 1000]) :=
  predict_retry_catches_all_exceptions (PyErr.nameError "oops") rfl

/-! ## Distributions and the `_sample` / `_kl` dispatch helpers -/

/-- A distribution value as dispatched on by `_sample` and `_kl`
(`model.py` lines 114-121 and 232-239): either an atomic
`AbstractMultiOutputDistribution` or a `Parallel` of distributions,
recursively.  An atomic distribution is an external collaborator; it is
modelled by an identifier (used to look up `q.kl(p)` results in an oracle
table) together with its `sample(num)` operation returning a tensor. -/
inductive DistG (T : Type) where
  | atomic : ℕ → (ℕ → T) → DistG T
  | par : List (DistG T) → DistG T

/-- A sampled value: a tensor, or a `Parallel` of sampled values, mirroring
the structure of the distribution it was drawn from. -/
inductive ValT (T : Type) where
  | leaf : T → ValT T
  | par : List (ValT T) → ValT T

/-- Error raised when the multiple-dispatch lookup of `_kl` finds no method
(one operand atomic, the other `Parallel`). -/
inductive KlErr where
  | dispatchError : KlErr
  deriving DecidableEq, Repr

mutual

/-- `_sample` (`model.py` lines 114-121): an atomic distribution delegates
to its own `sample(num)`; a `Parallel` recursively samples every branch
with the same `num` and rebuilds a `Parallel` in the same order. -/
def sample_ {T : Type} : DistG T → ℕ → ValT T
  | .atomic _ s, num => .leaf (s num)
  | .par ds, num => .par (sampleList_ ds num)

def sampleList_ {T : Type} : List (DistG T) → ℕ → List (ValT T)
  | [], _ => []
  | d :: ds, num => sample_ d num :: sampleList_ ds num

end

/-- The default of the `num` keyword of `_sample` (`model.py` lines 115
and 120: `num: B.Int = 1`). -/
def sampleDefaultNum : ℕ := 1

/-- `_sample` invoked without an explicit `num`, as in `elbo` it is invoked
with one; `Model.__call__` line 73 always passes `num=num_samples`. -/
def sampleNoNum {T : Type} (d : DistG T) : ValT T := sample_ d sampleDefaultNum

mutual

/-- `_kl` (`model.py` lines 232-239): two atomic distributions delegate to
`q.kl(p)` (oracle table `tbl` on the atomic identifiers); two `Parallel`
values evaluate `_kl` on the pairs produced by `zip(q, p)` — which
truncates to the shorter operand — and sum the results seeded at `0`
(`sum([...], 0)`, modelled by `zero`/`add` of the tensor backend); any
other combination has no matching dispatch method. -/
def kl_ {T : Type} (zero : T) (add : T → T → T) (tbl : ℕ → ℕ → T) :
    DistG T → DistG T → Except KlErr T
  | .atomic i _, .atomic j _ => .ok (tbl i j)
  | .par qs, .par ps =>
    match klZip_ zero add tbl qs ps with
    | .error e => .error e
    | .ok ks => .ok (ks.foldl add zero)
  | .atomic _ _, .par _ => .error .dispatchError
  | .par _, .atomic _ _ => .error .dispatchError

/-- The list `[_kl(qi, pi) for qi, pi in zip(q, p)]`: evaluated in order,
the first failure propagating, and truncated to the shorter operand. -/
def klZip_ {T : Type} (zero : T) (add : T → T → T) (tbl : ℕ → ℕ → T) :
    List (DistG T) → List (DistG T) → Except KlErr (List T)
  | q :: qs, p :: ps =>
    match kl_ zero add tbl q p with
    | .error e => .error e
    | .ok k =>
      match klZip_ zero add tbl qs ps with
      | .error e => .error e
      | .ok ks => .ok (k :: ks)
  | _, _ => .ok []

end

lemma klZip_atomics {T : Type} (zero : T) (add : T → T → T) (tbl : ℕ → ℕ → T) :
    ∀ (qs ps : List (ℕ × (ℕ → T))),
      klZip_ zero add tbl (qs.map fun a => .atomic a.1 a.2)
          (ps.map fun a => .atomic a.1 a.2) =
        .ok (List.zipWith (fun a b => tbl a.1 b.1) qs ps) := by
  intro qs
  induction qs with
  | nil => intro ps; cases ps <;> simp [klZip_]
  | cons q qs ih =>
    intro ps
    cases ps with
    | nil => simp [klZip_]
    | cons p ps => simp [klZip_, kl_, ih ps]

/-- C2 (amended): for `Parallel` operands whose branches are atomic
distributions, `_kl` returns the sum, seeded at 0 and taken pairwise in
branch order, of the atomic `kl` evaluations over the pairs produced by
`zip` — which truncates to the shorter operand, so operands of differing
branch counts also return this truncated sum instead of failing. -/
theorem kl_parallel_pairwise_sum {T : Type} (zero : T) (add : T → T → T)
    (tbl : ℕ → ℕ → T) (qs ps : List (ℕ × (ℕ → T))) :
    kl_ zero add tbl (.par (qs.map fun a => .atomic a.1 a.2))
        (.par (ps.map fun a => .atomic a.1 a.2)) =
      .ok ((List.zipWith (fun a b => tbl a.1 b.1) qs ps).foldl add zero) := by
  simp [kl_, klZip_atomics]

/-- C2 counterexample: `_kl` applied to `Parallel` operands with branch
counts 1 and 2 does not fail with a length-mismatch error; `zip` truncates
and the sum over the single matched pair is returned. -/
theorem kl_length_mismatch_returns_value :
    kl_ (0 : ℚ) (fun a b => a + b) (fun i j => 10 * i + j)
        (.par [.atomic 0 (fun _ => (0 : ℚ))])
        (.par [.atomic 1 (fun _ => (0 : ℚ)), .atomic 2 (fun _ => (0 : ℚ))]) =
      .ok 1 := by
  norm_num [kl_, klZip_]

/-! ## The sampling helper on shaped tensors (C9) -/

/-- A tensor, abstracted to its shape (list of axis sizes, leading axis
first); the entries play no role in the structural claims. -/
structure Ten where
  shape : List ℕ
  deriving DecidableEq, Repr

/-- The external distribution contract (spec section 6): `sample(num)`
returns a tensor whose leading axis has size `num`, for every `num` —
in particular the leading sample axis is present even at `num = 1`. -/
def sampleContract (s : ℕ → Ten) : Prop :=
  ∀ n : ℕ, (s n).shape.head? = some n

/-- Every atomic distribution inside the value satisfies the external
sampling contract. -/
inductive ContractOK : DistG Ten → Prop where
  | atomic : ∀ i s, sampleContract s → ContractOK (.atomic i s)
  | par : ∀ ds, (∀ d ∈ ds, ContractOK d) → ContractOK (.par ds)

/-- Every tensor in the sampled value has a leading axis of size `n`. -/
inductive LeadOK (n : ℕ) : ValT Ten → Prop where
  | leaf : ∀ t, t.shape.head? = some n → LeadOK n (.leaf t)
  | par : ∀ vs, (∀ v ∈ vs, LeadOK n v) → LeadOK n (.par vs)

lemma sampleList_eq_map {T : Type} (num : ℕ) :
    ∀ ds : List (DistG T), sampleList_ ds num = ds.map fun d => sample_ d num := by
  intro ds
  induction ds with
  | nil => simp [sampleList_]
  | cons d ds ih => simp [sampleList_, sample_, ih]

lemma sample_leadOK (num : ℕ) :
    ∀ d : DistG Ten, ContractOK d → LeadOK num (sample_ d num) := by
  intro d hd
  induction hd with
  | atomic i s hs => exact LeadOK.leaf (s num) (hs num)
  | par ds hmem ih =>
    rw [sample_, sampleList_eq_map]
    refine LeadOK.par _ ?_
    intro v hv
    rw [List.mem_map] at hv
    rcases hv with ⟨d, hd, rfl⟩
    exact ih d hd

/-- C9: `_sample` on a `Parallel` of distributions returns a `Parallel`
with exactly as many elements, in the same branch order, each element being
the corresponding branch sampled with the same `num`; under the external
sampling contract every branch's leading sample axis has size `num` (so the
axis is present, never squeezed, also at `num = 1`); and `num` defaults
to 1. -/
theorem sample_parallel_structure (ds : List (DistG Ten)) (num : ℕ)
    (hc : ∀ d ∈ ds, ContractOK d) (_hnum : 1 ≤ num) :
    sample_ (.par ds) num = .par (ds.map fun d => sample_ d num) ∧
    (ds.map fun d => sample_ d num).length = ds.length ∧
    LeadOK num (sample_ (.par ds) num) ∧
    sampleNoNum (DistG.par ds) = sample_ (.par ds) sampleDefaultNum := by
  refine ⟨by rw [sample_, sampleList_eq_map], by simp, ?_, rfl⟩
  exact sample_leadOK num _ (ContractOK.par ds hc)

/-- A concrete two-branch `Parallel`: an atomic distribution producing
tensors of shape `[num, 2]` and a nested `Parallel` holding an atomic
distribution producing tensors of shape `[num]`. -/
def wDists : List (DistG Ten) :=
  [.atomic 0 (fun n => ⟨[n, 2]⟩), .par [.atomic 1 (fun n => ⟨[n]⟩)]]

/-- Witness for C9 at `num = 1` on `wDists`. -/
theorem sample_parallel_structure_witness :
    sample_ (.par wDists) 1 = .par (wDists.map fun d => sample_ d 1) ∧
    (wDists.map fun d => sample_ d 1).length = wDists.length ∧
    LeadOK 1 (sample_ (.par wDists) 1) ∧
    sampleNoNum (DistG.par wDists) = sample_ (.par wDists) sampleDefaultNum := by
  refine sample_parallel_structure wDists 1 ?_ (by decide)
  intro d hd
  simp only [wDists, List.mem_cons, List.not_mem_nil, or_false] at hd
  rcases hd with rfl | rfl
  · exact ContractOK.atomic _ _ (fun n => rfl)
  · refine ContractOK.par _ ?_
    intro d hd
    simp only [List.mem_cons, List.not_mem_nil, or_false] at hd
    subst hd
    exact ContractOK.atomic _ _ (fun n => rfl)

/-! ## `Model.__call__`, Form A (C8) -/

/-- The target input handed to the pipeline stages: either the raw `xt`
or, when `aux_t` is supplied, `AugmentedInput(xt, aux_t)`
(`model.py` lines 62-63). -/
inductive XTarget (X A : Type) where
  | plain : X → XTarget X A
  | augmented : X → A → XTarget X A
  deriving DecidableEq, Repr

/-- `enc_kw_args = dict(kw_args); if "noiseless" in enc_kw_args: del
enc_kw_args["noiseless"]` (`model.py` lines 67-69), modelled on keyword
association lists. -/
def removeNoiseless {V : Type} (o : List (String × V)) : List (String × V) :=
  o.filter fun p => p.1 != "noiseless"

mutual

/-- `B.cast(dtype, z)` on a sampled value: the cast is applied elementwise,
recursing through `Parallel` structure (`model.py` lines 74-75). -/
def castVal {T DT : Type} (castT : DT → T → T) (dt : DT) : ValT T → ValT T
  | .leaf t => .leaf (castT dt t)
  | .par vs => .par (castValList castT dt vs)

def castValList {T DT : Type} (castT : DT → T → T) (dt : DT) :
    List (ValT T) → List (ValT T)
  | [] => []
  | v :: vs => castVal castT dt v :: castValList castT dt vs

end

/-- The arguments received by the encoder's `code` invocation
(`model.py` line 70). -/
structure EncCall (X Y A V : Type) where
  xc : X
  yc : Y
  xt : XTarget X A
  opts : List (String × V)

/-- The arguments received by the decoder's `code` invocation
(`model.py` line 77). -/
structure DecCall (XZ T X A V : Type) where
  xz : XZ
  z : ValT T
  xt : XTarget X A
  opts : List (String × V)

/-- `Model.__call__`, Form A (`model.py` lines 34-79), with the coding
pipeline's `code` as oracle parameters.  Returns the decoded distribution
`d` together with the exact argument tuples handed to the two pipeline
stages. -/
def modelCallA {X Y A XZ T DT D V : Type}
    (castT : DT → T → T)
    (codeE : X → Y → XTarget X A → List (String × V) → XZ × DistG T)
    (codeD : XZ → ValT T → XTarget X A → List (String × V) → XZ × D)
    (xc : X) (yc : Y) (xt : X) (num_samples : ℕ) (aux_t : Option A)
    (dtype_enc_sample : Option DT) (kw_args : List (String × V)) :
    D × EncCall X Y A V × DecCall XZ T X A V :=
  let xt2 : XTarget X A :=
    match aux_t with
    | none => .plain xt
    | some a => .augmented xt a
  let enc_kw_args := removeNoiseless kw_args
  let ep := codeE xc yc xt2 enc_kw_args
  let z0 := sample_ ep.2 num_samples
  let z :=
    match dtype_enc_sample with
    | none => z0
    | some dt => castVal castT dt z0
  let dp := codeD ep.1 z xt2 kw_args
  (dp.2, ⟨xc, yc, xt2, enc_kw_args⟩, ⟨ep.1, z, xt2, kw_args⟩)

lemma lookup_removeNoiseless_self {V : Type} :
    ∀ o : List (String × V), (removeNoiseless o).lookup "noiseless" = none := by
  intro o
  induction o with
  | nil => rfl
  | cons p o ih =>
    rcases p with ⟨a, v⟩
    by_cases h : a = "noiseless"
    · subst h
      simpa [removeNoiseless, List.filter_cons] using ih
    · have hne : ¬ ("noiseless" : String) = a := fun hh => h hh.symm
      simpa [removeNoiseless, List.filter_cons, h, List.lookup_cons,
        beq_false_of_ne hne] using ih

lemma lookup_removeNoiseless_ne {V : Type} (k : String) (hk : k ≠ "noiseless") :
    ∀ o : List (String × V), (removeNoiseless o).lookup k = o.lookup k := by
  intro o
  induction o with
  | nil => rfl
  | cons p o ih =>
    rcases p with ⟨a, v⟩
    by_cases h : a = "noiseless"
    · subst h
      simpa [removeNoiseless, List.filter_cons, List.lookup_cons,
        beq_false_of_ne hk] using ih
    · have hfa : (a != "noiseless") = true := by simp [h]
      simp only [removeNoiseless, List.filter_cons, hfa, if_true,
        List.lookup_cons]
      cases hkc : (k == a) with
      | false => simpa [removeNoiseless] using ih
      | true => rfl

/-- C8: in Form A, the encoder's `code` invocation receives every supplied
keyword option except `noiseless` unchanged and no `noiseless` key at all;
the decoder's `code` invocation receives exactly the full supplied option
set, `noiseless` included; and the caller's `xc`, `yc`, `xt` reach the
stages unmodified (with `xt` left plain when no `aux_t` is supplied, and
the decoder seeing the same target input value as the encoder). -/
theorem modelCall_option_forwarding {X Y A XZ T DT D V : Type}
    (castT : DT → T → T)
    (codeE : X → Y → XTarget X A → List (String × V) → XZ × DistG T)
    (codeD : XZ → ValT T → XTarget X A → List (String × V) → XZ × D)
    (xc : X) (yc : Y) (xt : X) (num_samples : ℕ) (aux_t : Option A)
    (dtype_enc_sample : Option DT) (kw_args : List (String × V)) :
    (∀ k, k ≠ "noiseless" →
      (modelCallA castT codeE codeD xc yc xt num_samples aux_t
          dtype_enc_sample kw_args).2.1.opts.lookup k = kw_args.lookup k) ∧
    (modelCallA castT codeE codeD xc yc xt num_samples aux_t
        dtype_enc_sample kw_args).2.1.opts.lookup "noiseless" = none ∧
    (modelCallA castT codeE codeD xc yc xt num_samples aux_t
        dtype_enc_sample kw_args).2.2.opts = kw_args ∧
    (modelCallA castT codeE codeD xc yc xt num_samples aux_t
        dtype_enc_sample kw_args).2.1.xc = xc ∧
    (modelCallA castT codeE codeD xc yc xt num_samples aux_t
        dtype_enc_sample kw_args).2.1.yc = yc ∧
    (aux_t = none →
      (modelCallA castT codeE codeD xc yc xt num_samples aux_t
          dtype_enc_sample kw_args).2.1.xt = XTarget.plain xt) ∧
    (modelCallA castT codeE codeD xc yc xt num_samples aux_t
        dtype_enc_sample kw_args).2.2.xt =
      (modelCallA castT codeE codeD xc yc xt num_samples aux_t
          dtype_enc_sample kw_args).2.1.xt := by
  refine ⟨fun k hk => ?_, ?_, rfl, rfl, rfl, fun ha => ?_, rfl⟩
  · exact lookup_removeNoiseless_ne k hk kw_args
  · exact lookup_removeNoiseless_self kw_args
  · subst ha; rfl

/-- Keyword options of a concrete Form A call. -/
def wOpts : List (String × ℕ) := [("noiseless", 1), ("other", 2)]

/-- Witness for C8: concrete stages over `ℕ`, options
`{noiseless: 1, other: 2}`; the encoder sees `other` unchanged and no
`noiseless`, the decoder sees the full option list. -/
theorem modelCall_option_forwarding_witness :
    (modelCallA (fun (_ : ℕ) (t : ℕ) => t)
        (fun (_ : ℕ) (_ : ℕ) (_ : XTarget ℕ ℕ) (_ : List (String × ℕ)) =>
          ((0 : ℕ), DistG.atomic 0 fun n => n))
        (fun (xz : ℕ) (_ : ValT ℕ) (_ : XTarget ℕ ℕ) (_ : List (String × ℕ)) =>
          (xz, (0 : ℕ)))
        0 0 0 1 none none wOpts).2.1.opts.lookup "other" = wOpts.lookup "other" ∧
    (modelCallA (fun (_ : ℕ) (t : ℕ) => t)
        (fun (_ : ℕ) (_ : ℕ) (_ : XTarget ℕ ℕ) (_ : List (String × ℕ)) =>
          ((0 : ℕ), DistG.atomic 0 fun n => n))
        (fun (xz : ℕ) (_ : ValT ℕ) (_ : XTarget ℕ ℕ) (_ : List (String × ℕ)) =>
          (xz, (0 : ℕ)))
        0 0 0 1 none none wOpts).2.1.opts.lookup "noiseless" = none :=
  ⟨(modelCall_option_forwarding _ _ _ 0 0 0 1 none none wOpts).1 "other"
      (by decide),
    (modelCall_option_forwarding _ _ _ 0 0 0 1 none none wOpts).2.1⟩

/-! ## The tensor backend and the `loglik` objective (C6) -/

/-- The `lab`/`B` tensor-backend operations used by the objectives,
an external collaborator modelled as an oracle: dtype inspection and
promotion, casting, `logsumexp` over axis 0, `log` of an integer,
elementwise arithmetic, division by a scalar count, the size of the last
axis, concatenation along the last axis, the mean over axis 0, and the
additive identity used to seed `sum(..., 0)`. -/
structure Backend (T DT : Type) where
  dtypeFloat : T → DT
  promote64 : DT → DT
  cast : DT → T → T
  logsumexp0 : T → T
  logNat : ℕ → T
  sub : T → T → T
  add : T → T → T
  mul : T → T → T
  divNat : T → ℕ → T
  lastSize : T → ℕ
  concatLast : T → T → T
  mean0 : T → T
  zero : T

/-- A predictive distribution as consumed by `loglik`/`elbo`: only its
`logpdf` operation is used. -/
structure PredD (T : Type) where
  logpdf : T → T

/-- `loglik` (`model.py` lines 124-171).  The model is an oracle receiving
`(xc, yc, xt, num_samples, dtype_enc_sample, dtype_lik, **kw_args)` and
returning the predictive distribution. -/
def loglik {T DT V : Type} (bk : Backend T DT)
    (modelFn : T → T → T → ℕ → DT → DT → List (String × V) → PredD T)
    (xc yc xt yt : T) (num_samples : ℕ) (normalise : Bool)
    (kw_args : List (String × V)) : T :=
  let flt := bk.dtypeFloat yt
  let float64 := bk.promote64 flt
  let pred := modelFn xc yc xt num_samples flt float64 kw_args
  let logpdfs := pred.logpdf (bk.cast float64 yt)
  let logpdfs2 :=
    if 1 < num_samples then
      bk.sub (bk.logsumexp0 logpdfs) (bk.logNat num_samples)
    else logpdfs
  if normalise then bk.divNat logpdfs2 (bk.lastSize xt) else logpdfs2

/-- The direct per-sample log-densities of `loglik`: the model's predictive
distribution evaluated at `yt` cast to the promoted higher precision,
before any sample-axis collapse or normalisation. -/
def loglikRawLogpdfs {T DT V : Type} (bk : Backend T DT)
    (modelFn : T → T → T → ℕ → DT → DT → List (String × V) → PredD T)
    (xc yc xt yt : T) (num_samples : ℕ) (kw_args : List (String × V)) : T :=
  (modelFn xc yc xt num_samples (bk.dtypeFloat yt)
      (bk.promote64 (bk.dtypeFloat yt)) kw_args).logpdf
    (bk.cast (bk.promote64 (bk.dtypeFloat yt)) yt)

/-- C6: when `num_samples > 1`, `loglik` collapses the per-sample
log-densities over the leading sample axis by log-sum-exp minus
`log(num_samples)`; when `num_samples = 1` no collapse is applied and the
result is the direct log-density of the one sample, divided by the size of
the last axis of `xt` exactly when `normalise` is true. -/
theorem loglik_sample_collapse {T DT V : Type} (bk : Backend T DT)
    (modelFn : T → T → T → ℕ → DT → DT → List (String × V) → PredD T)
    (xc yc xt yt : T) (num_samples : ℕ) (normalise : Bool)
    (kw_args : List (String × V)) :
    (1 < num_samples →
      loglik bk modelFn xc yc xt yt num_samples normalise kw_args =
        (if normalise then
          bk.divNat
            (bk.sub
              (bk.logsumexp0
                (loglikRawLogpdfs bk modelFn xc yc xt yt num_samples kw_args))
              (bk.logNat num_samples))
            (bk.lastSize xt)
        else
          bk.sub
            (bk.logsumexp0
              (loglikRawLogpdfs bk modelFn xc yc xt yt num_samples kw_args))
            (bk.logNat num_samples))) ∧
    loglik bk modelFn xc yc xt yt 1 normalise kw_args =
      (if normalise then
        bk.divNat (loglikRawLogpdfs bk modelFn xc yc xt yt 1 kw_args)
          (bk.lastSize xt)
      else loglikRawLogpdfs bk modelFn xc yc xt yt 1 kw_args) := by
  constructor
  · intro h
    simp [loglik, loglikRawLogpdfs, h]
  · simp [loglik, loglikRawLogpdfs]

/-- A concrete rational backend used for witnesses: dtypes are trivial,
`logsumexp` over axis 0 adds 100 (to keep it distinguishable), the last
axis has size 7. -/
def qlBk : Backend ℚ Unit :=
  ⟨fun _ => (), fun _ => (), fun _ t => t, fun t => t + 100, fun n => (n : ℚ),
    fun a b => a - b, fun a b => a + b, fun a b => a * b,
    fun a n => a / (n : ℚ), fun _ => 7, fun a b => a + b, fun t => t, 0⟩

/-- A concrete model oracle whose predictive log-density adds 1. -/
def qlModel : ℚ → ℚ → ℚ → ℕ → Unit → Unit → List (String × Unit) → PredD ℚ :=
  fun _ _ _ _ _ _ _ => ⟨fun y => y + 1⟩

/-- Witness for C6 at `num_samples = 2`, `normalise = false`. -/
theorem loglik_sample_collapse_witness :
    loglik qlBk qlModel 1 2 3 4 2 false [] =
      qlBk.sub (qlBk.logsumexp0 (loglikRawLogpdfs qlBk qlModel 1 2 3 4 2 []))
        (qlBk.logNat 2) :=
  (loglik_sample_collapse qlBk qlModel 1 2 3 4 2 false []).1 (by decide)

/-! ## The `elbo` objective (C5, C7) -/

/-- `elbo` (`model.py` lines 174-229).  The coding pipeline's `code_track`,
`recode_stochastic` and `code` are oracle parameters; `kl_` gives the KL
term.  Returns `Except` because a mixed atomic/`Parallel` pair makes the
KL dispatch fail. -/
def elbo {T DT V H : Type} (bk : Backend T DT)
    (codeTrack : T → T → T → DT → List (String × V) → T × DistG T × H)
    (recode : DistG T → T → T → H → DT → List (String × V) → DistG T)
    (codeDec : T → ValT T → T → DT → List (String × V) → T × PredD T)
    (klTbl : ℕ → ℕ → T)
    (xc yc xt yt : T) (num_samples : ℕ) (normalise subsume_context : Bool)
    (kw_args : List (String × V)) : Except KlErr T :=
  let flt := bk.dtypeFloat yt
  let float64 := bk.promote64 flt
  let xt2 := if subsume_context then bk.concatLast xc xt else xt
  let yt2 := if subsume_context then bk.concatLast yc yt else yt
  let tr := codeTrack xc yc xt2 float64 kw_args
  let xz := tr.1
  let pz := tr.2.1
  let h := tr.2.2
  let qz := recode pz xt2 yt2 h float64 kw_args
  let z := castVal bk.cast flt (sample_ qz num_samples)
  let d := (codeDec xz z xt2 float64 kw_args).2
  match kl_ bk.zero bk.add klTbl qz pz with
  | .error e => .error e
  | .ok kl =>
    let elbos := bk.sub (bk.mean0 (d.logpdf (bk.cast float64 yt2))) kl
    .ok (if normalise then bk.divNat elbos (bk.lastSize xt2) else elbos)

/-- The target inputs actually used by `elbo`: the concatenation of `xc`
and `xt` along the last axis when the context is subsumed, the caller's
`xt` otherwise (`model.py` lines 205-207). -/
def elboXtUsed {T DT : Type} (bk : Backend T DT) (xc xt : T)
    (subsume_context : Bool) : T :=
  if subsume_context then bk.concatLast xc xt else xt

/-- The target outputs actually used by `elbo` (`model.py` line 208). -/
def elboYtUsed {T DT : Type} (bk : Backend T DT) (yc yt : T)
    (subsume_context : Bool) : T :=
  if subsume_context then bk.concatLast yc yt else yt

/-- The prior construction of `elbo`: the tracked encoder run
(`model.py` line 211), returning `(xz, pz, h)`. -/
def elboPrior {T DT V H : Type} (bk : Backend T DT)
    (codeTrack : T → T → T → DT → List (String × V) → T × DistG T × H)
    (xc yc xt yt : T) (subsume_context : Bool)
    (kw_args : List (String × V)) : T × DistG T × H :=
  codeTrack xc yc (elboXtUsed bk xc xt subsume_context)
    (bk.promote64 (bk.dtypeFloat yt)) kw_args

/-- The posterior construction of `elbo`: the stochastic recode
(`model.py` line 214), returning `qz`. -/
def elboPosterior {T DT V H : Type} (bk : Backend T DT)
    (codeTrack : T → T → T → DT → List (String × V) → T × DistG T × H)
    (recode : DistG T → T → T → H → DT → List (String × V) → DistG T)
    (xc yc xt yt : T) (subsume_context : Bool)
    (kw_args : List (String × V)) : DistG T :=
  recode (elboPrior bk codeTrack xc yc xt yt subsume_context kw_args).2.1
    (elboXtUsed bk xc xt subsume_context)
    (elboYtUsed bk yc yt subsume_context)
    (elboPrior bk codeTrack xc yc xt yt subsume_context kw_args).2.2
    (bk.promote64 (bk.dtypeFloat yt)) kw_args

/-- The decoded predictive distribution of `elbo`: the posterior sample,
cast to the working precision, run through the decoder
(`model.py` lines 217-220). -/
def elboDecoded {T DT V H : Type} (bk : Backend T DT)
    (codeTrack : T → T → T → DT → List (String × V) → T × DistG T × H)
    (recode : DistG T → T → T → H → DT → List (String × V) → DistG T)
    (codeDec : T → ValT T → T → DT → List (String × V) → T × PredD T)
    (xc yc xt yt : T) (num_samples : ℕ) (subsume_context : Bool)
    (kw_args : List (String × V)) : PredD T :=
  (codeDec (elboPrior bk codeTrack xc yc xt yt subsume_context kw_args).1
    (castVal bk.cast (bk.dtypeFloat yt)
      (sample_
        (elboPosterior bk codeTrack recode xc yc xt yt subsume_context kw_args)
        num_samples))
    (elboXtUsed bk xc xt subsume_context)
    (bk.promote64 (bk.dtypeFloat yt)) kw_args).2

/-- C7: the unnormalised `elbo` equals the mean over the leading sample
axis of the decoded distribution's log-density at the (possibly subsumed)
`yt` cast to the promoted higher precision, minus the KL divergence between
the posterior `qz` and the prior `pz`; the KL term is the single `_kl`
evaluation of the posterior against the prior and takes no `num_samples`
argument, so it is computed once and never averaged over samples. -/
theorem elbo_mean_minus_kl {T DT V H : Type} (bk : Backend T DT)
    (codeTrack : T → T → T → DT → List (String × V) → T × DistG T × H)
    (recode : DistG T → T → T → H → DT → List (String × V) → DistG T)
    (codeDec : T → ValT T → T → DT → List (String × V) → T × PredD T)
    (klTbl : ℕ → ℕ → T) (xc yc xt yt : T) (num_samples : ℕ)
    (subsume_context : Bool) (kw_args : List (String × V)) :
    elbo bk codeTrack recode codeDec klTbl xc yc xt yt num_samples false
        subsume_context kw_args =
      Except.map
        (fun kl =>
          bk.sub
            (bk.mean0
              ((elboDecoded bk codeTrack recode codeDec xc yc xt yt
                  num_samples subsume_context kw_args).logpdf
                (bk.cast (bk.promote64 (bk.dtypeFloat yt))
                  (elboYtUsed bk yc yt subsume_context))))
            kl)
        (kl_ bk.zero bk.add klTbl
          (elboPosterior bk codeTrack recode xc yc xt yt subsume_context
            kw_args)
          (elboPrior bk codeTrack xc yc xt yt subsume_context kw_args).2.1) := by
  simp only [elbo, elboDecoded, elboPosterior, elboPrior, elboXtUsed,
    elboYtUsed]
  split
  next e h => rw [h]; rfl
  next kl h => rw [h]; rfl

/-- C5 (amended): with `normalise = true`, `elbo` equals the unnormalised
ELBO divided by the size of the last axis of the target inputs actually
used — the concatenation of `xc` and `xt` when `subsume_context` is true,
the caller-supplied `xt` otherwise. -/
theorem elbo_normalisation_divisor {T DT V H : Type} (bk : Backend T DT)
    (codeTrack : T → T → T → DT → List (String × V) → T × DistG T × H)
    (recode : DistG T → T → T → H → DT → List (String × V) → DistG T)
    (codeDec : T → ValT T → T → DT → List (String × V) → T × PredD T)
    (klTbl : ℕ → ℕ → T) (xc yc xt yt : T) (num_samples : ℕ)
    (subsume_context : Bool) (kw_args : List (String × V)) :
    elbo bk codeTrack recode codeDec klTbl xc yc xt yt num_samples true
        subsume_context kw_args =
      Except.map
        (fun u => bk.divNat u (bk.lastSize (elboXtUsed bk xc xt subsume_context)))
        (elbo bk codeTrack recode codeDec klTbl xc yc xt yt num_samples false
          subsume_context kw_args) := by
  simp only [elbo, elboXtUsed, elboYtUsed]
  split
  next _ _ => rfl
  next _ _ => rfl

/-- Concrete backend over value/last-axis-size pairs: the value component
carries the scalar arithmetic, the second component the size of the last
axis, with concatenation adding sizes. -/
def eBk : Backend (ℚ × ℕ) Unit :=
  ⟨fun _ => (), fun _ => (), fun _ t => t, fun t => t, fun n => ((n : ℚ), 0),
    fun a b => (a.1 - b.1, a.2), fun a b => (a.1 + b.1, a.2),
    fun a b => (a.1 * b.1, a.2), fun a n => (a.1 / (n : ℚ), a.2),
    fun a => a.2, fun a b => (a.1 + b.1, a.2 + b.2), fun t => t, (0, 0)⟩

/-- Concrete tracked-encoder oracle: prior is the atomic distribution 0. -/
def eCodeTrack : ℚ × ℕ → ℚ × ℕ → ℚ × ℕ → Unit → List (String × Unit) →
    (ℚ × ℕ) × DistG (ℚ × ℕ) × Unit :=
  fun _ _ _ _ _ => ((0, 0), .atomic 0 (fun _ => ((0 : ℚ), 0)), ())

/-- Concrete recode oracle: posterior is the atomic distribution 1. -/
def eRecode : DistG (ℚ × ℕ) → ℚ × ℕ → ℚ × ℕ → Unit → Unit →
    List (String × Unit) → DistG (ℚ × ℕ) :=
  fun _ _ _ _ _ _ => .atomic 1 (fun _ => ((0 : ℚ), 0))

/-- Concrete decoder oracle: the decoded log-density is the constant 84
with last-axis size 1. -/
def eCodeDec : ℚ × ℕ → ValT (ℚ × ℕ) → ℚ × ℕ → Unit → List (String × Unit) →
    (ℚ × ℕ) × PredD (ℚ × ℕ) :=
  fun _ _ _ _ _ => ((0, 0), ⟨fun _ => ((84 : ℚ), 1)⟩)

/-- Concrete KL oracle: every atomic KL is 0. -/
def eKlTbl : ℕ → ℕ → ℚ × ℕ := fun _ _ => ((0 : ℚ), 0)

/-- C5 counterexample: with context of last-axis size 5 and targets of
last-axis size 7, `subsume_context = true` and unnormalised ELBO 84,
`elbo` with `normalise = true` returns `84 / 12 = 7` — dividing by the
subsumed target count 12 — whereas dividing the unnormalised ELBO by the
caller-supplied `xt`'s last-axis size 7 (the rule the claim states) would
give `84 / 7 = 12`. -/
theorem elbo_normalise_counterexample :
    elbo eBk eCodeTrack eRecode eCodeDec eKlTbl ((0 : ℚ), 5) ((0 : ℚ), 5)
        ((0 : ℚ), 7) ((0 : ℚ), 7) 1 true true [] = .ok ((7 : ℚ), 1) ∧
    Except.map (fun u => eBk.divNat u (eBk.lastSize ((0 : ℚ), 7)))
        (elbo eBk eCodeTrack eRecode eCodeDec eKlTbl ((0 : ℚ), 5) ((0 : ℚ), 5)
          ((0 : ℚ), 7) ((0 : ℚ), 7) 1 false true []) = .ok ((12 : ℚ), 1) ∧
    (Except.ok ((7 : ℚ), (1 : ℕ)) : Except KlErr (ℚ × ℕ)) ≠ .ok ((12 : ℚ), 1) := by
  refine ⟨?_, ?_, by norm_num⟩ <;>
    norm_num [elbo, eBk, eCodeTrack, eRecode, eCodeDec, eKlTbl, castVal,
      sample_, kl_, klZip_, Except.map]

/-! ## The literal `predict` (C1) -/

/-- A model prediction as consumed by `predict`: marginal `mean` and `var`,
`sample()` (reading the current global `B.epsilon` and possibly failing),
and `logpdf`. -/
structure PredFull (T : Type) where
  mean : T
  var : T
  sample : ℚ → Except PyErr T
  logpdf : T → T

/-- The names in scope inside `predict` at `model.py` line 267: the local
variables bound so far (`model.py` lines 242 and 260-264) followed by the
module-level globals of `model.py` (lines 1-14 and the top-level
definitions). -/
def predictScope : List String :=
  ["model", "xc", "yc", "xt", "pred_num_samples", "num_samples",
    "pred", "m1", "m2", "mean", "var",
    "B", "np", "indent", "List", "Tuple", "Union", "AugmentedInput",
    "code", "code_track", "recode_stochastic",
    "AbstractMultiOutputDistribution", "Masked", "Parallel",
    "register_module", "_dispatch", "__all__", "Model", "_sample",
    "loglik", "elbo", "_kl", "predict"]

/-- Python name resolution inside `predict`: an unbound name raises
`NameError`. -/
def resolveName (n : String) : Except PyErr Unit :=
  if n ∈ predictScope then .ok () else .error (.nameError n)

/-- The literal `predict` (`model.py` lines 242-290).  The first model
invocation is an oracle `modelFn`; the second invocation's arguments are
evaluated left to right by resolving the names the source literally
references — `batch` (twice), `x`, `torch` (twice) — before the value
`noiselessPred` could be produced; then the retry loop runs with the
global regularisation starting at `eps0`.  Returns the outcome and the
final value of `B.epsilon` (or `none` for divergence beyond `fuel`). -/
def predictM {T DT : Type} (bk : Backend T DT)
    (modelFn : T → T → T → ℕ → PredFull T)
    (noiselessPred : PredFull T)
    (xc yc xt : T) (pred_num_samples _num_samples : ℕ)
    (fuel : ℕ) (eps0 : ℚ) : Option (Except PyErr (T × T × T) × ℚ) :=
  let pred := modelFn xc yc xt pred_num_samples
  let m1 := bk.mean0 pred.mean
  let m2 := bk.mean0 (bk.add pred.var (bk.mul pred.mean pred.mean))
  let mean := m1
  let var := bk.sub m2 (bk.mul m1 m1)
  let argEval : Except PyErr Unit := do
    let _ ← resolveName "batch"
    let _ ← resolveName "batch"
    let _ ← resolveName "x"
    let _ ← resolveName "torch"
    let _ ← resolveName "torch"
    pure ()
  match argEval with
  | .error e => some (.error e, eps0)
  | .ok _ =>
    match retrySample noiselessPred.sample fuel eps0 with
    | none => none
    | some (.success s, epsF, _) => some (.ok (mean, var, s), epsF)
    | some (.reraised e, epsF, _) => some (.error e, epsF)
    | some (.uncaught e, epsF, _) => some (.error e, epsF)

/-- C1: every call of `predict` raises `NameError` on the unbound name
`batch` while evaluating the arguments of the second (noiseless) model
invocation (`model.py` line 268), before that invocation can be applied to
anything, so `predict` never returns the (mean, variance, noiseless
samples) triple; the global regularisation is untouched on this exit. -/
theorem predict_raises_nameError {T DT : Type} (bk : Backend T DT)
    (modelFn : T → T → T → ℕ → PredFull T) (noiselessPred : PredFull T)
    (xc yc xt : T) (pred_num_samples num_samples : ℕ)
    (fuel : ℕ) (eps0 : ℚ) :
    predictM bk modelFn noiselessPred xc yc xt pred_num_samples num_samples
        fuel eps0 =
      some (.error (.nameError "batch"), eps0) := by
  rfl

end NeuralProcesses
